import Mathlib

/-!
# Verification of the ultralight Portal Network client core

A shallow embedding, in Lean 4, of the parts of the ultralight source that the
specification's claims are about:

* `ContentManager.addContentToHistory` (History sub-protocol content admission),
* the pre-merge accumulator index helpers `blockNumberToLeafIndex` /
  `blockNumberToGindex`,
* `StateDB` (`getSublevel`, `updateAccount`, `sortAccountRecord`),
* `StateProtocol.sendFindContent` / `findContentLocally`,
* the Beacon content-key codec (`getBeaconContentKey` / `decodeBeaconContentKey`),
* `UltralightStateManager`.

JavaScript strings are modelled as `List Char`, byte arrays (`Uint8Array`,
`Buffer`) as `List Nat` with entries `< 256`, JS `Map`s and plain objects as
insertion-ordered association lists, and JS `bigint` as `Nat`/`Int`.  External
collaborators (RLP decoding, keccak hashing, SSZ deserialization, the trie
library) are parameters of the embedding, since the source treats them as
imported libraries.
-/

/-- JS strings are modelled as lists of characters. -/
abbrev HexStr := List Char

/-- A byte rendered as two lowercase hex characters, as produced by
`toHexString` from `@chainsafe/ssz` (and `bytesToHex` from `@ethereumjs/util`). -/
def byteToHex (n : Nat) : List Char :=
  [Nat.digitChar (n / 16), Nat.digitChar (n % 16)]

/-- `toHexString` from `@chainsafe/ssz`: `0x`-prefixed lowercase hex encoding of
a byte array. -/
def toHexString (bs : List Nat) : HexStr :=
  '0' :: 'x' :: bs.flatMap byteToHex

/-- Numeric value of one lowercase hex digit (other characters parse as 0,
mirroring lenient byte-wise hex parsing; round trips only meet valid digits). -/
def hexVal (c : Char) : Nat :=
  if c = '0' then 0
  else if c = '1' then 1
  else if c = '2' then 2
  else if c = '3' then 3
  else if c = '4' then 4
  else if c = '5' then 5
  else if c = '6' then 6
  else if c = '7' then 7
  else if c = '8' then 8
  else if c = '9' then 9
  else if c = 'a' then 10
  else if c = 'b' then 11
  else if c = 'c' then 12
  else if c = 'd' then 13
  else if c = 'e' then 14
  else if c = 'f' then 15
  else 0

/-- Consume hex characters two at a time, producing one byte per pair. -/
def parseHexPairs : List Char → List Nat
  | c1 :: c2 :: rest => (16 * hexVal c1 + hexVal c2) :: parseHexPairs rest
  | _ => []

/-- `fromHexString` from `@chainsafe/ssz` (also `hexToBytes` from
`@ethereumjs/util`): parse a hex string, stripping a `0x` prefix when present. -/
def fromHexString (s : HexStr) : List Nat :=
  parseHexPairs (if s.take 2 = ['0', 'x'] then s.drop 2 else s)

/-- `hexToBytes` from `@ethereumjs/util`, used by `findContentLocally`. -/
def hexToBytes (s : HexStr) : List Nat := fromHexString s

/-- Association-list lookup: first binding wins, like a JS `Map` or object. -/
def alookup {α β : Type} [DecidableEq α] : List (α × β) → α → Option β
  | [], _ => none
  | (a, b) :: rest, key => if a = key then some b else alookup rest key

/-- Association-list upsert with JS `Map.set` semantics: replace in place when
the key is present, append otherwise. -/
def alinsert {α β : Type} [DecidableEq α] : List (α × β) → α → β → List (α × β)
  | [], key, val => [(key, val)]
  | (a, b) :: rest, key, val =>
    if a = key then (key, val) :: rest else (a, b) :: alinsert rest key val

/-- Association-list deletion, JS `Map.delete` semantics. -/
def alremove {α β : Type} [DecidableEq α] (l : List (α × β)) (key : α) :
    List (α × β) :=
  l.filter (fun p => p.1 ≠ key)

/-- Write a batch of bindings left to right. -/
def putAll {α β : Type} [DecidableEq α] (l : List (α × β)) (ops : List (α × β)) :
    List (α × β) :=
  ops.foldl (fun acc p => alinsert acc p.1 p.2) l

/-- JS `Set.add` on a list model of a `Set`: append when not yet present. -/
def setAdd {α : Type} [DecidableEq α] (s : List α) (a : α) : List α :=
  if a ∈ s then s else s ++ [a]

/-- XOR metric on 256-bit ids, `distance` from `@chainsafe/discv5` (an external
collaborator of the source). -/
def distance (a b : Nat) : Nat := a ^^^ b

/-! ## History sub-protocol: `ContentManager.addContentToHistory` -/

/-- `HistoryNetworkContentTypes` enum from the History sub-protocol types
(values 0..4, see `ctValue`). -/
inductive HistoryContentType : Type
  | BlockHeader
  | BlockBody
  | Receipt
  | EpochAccumulator
  | HeaderProof
deriving DecidableEq, Repr

/-- Numeric value of a `HistoryNetworkContentTypes` member, the selector byte
of the History content-key union. -/
def ctValue : HistoryContentType → Nat
  | .BlockHeader => 0
  | .BlockBody => 1
  | .Receipt => 2
  | .EpochAccumulator => 3
  | .HeaderProof => 4

/-- Modelled from the spec: `getHistoryNetworkContentKey` (History `util.ts`,
not under `src/`).  Per §3, a content key is `selector_byte ‖ body`, and
persistence keys are its hex encoding. -/
def getHistoryNetworkContentKey (t : HistoryContentType) (hash : List Nat) :
    HexStr :=
  toHexString (ctValue t :: hash)

/-- The result of `BlockHeader.fromRLPSerializedHeader(...)` from
`@ethereumjs/block` (an external collaborator): the fields the source reads. -/
structure HeaderM where
  number : Nat
  hashBytes : List Nat
deriving DecidableEq, Repr

/-- The result of `reassembleBlock` / `getBlockByHash`: the fields of an
`@ethereumjs/block` `Block` the source reads. -/
structure BlockM where
  number : Nat
  txCount : Nat
deriving DecidableEq, Repr

/-- External collaborators of `ContentManager.addContentToHistory`; a throwing
JS call is modelled by `none`. -/
structure HistoryExt where
  /-- `BlockHeader.fromRLPSerializedHeader` composed with `.number`/`.hash()`. -/
  decodeHeader : List Nat → Option HeaderM
  /-- `reassembleBlock(header, body)`; `none` when it throws. -/
  reassembleBlock : List Nat → List Nat → Option BlockM
  /-- `this.history.ETH.getBlockByHash(hashKey, false)`; `none` when it fails. -/
  getBlockByHash : HexStr → Option BlockM
  /-- `SszProofType.deserialize` followed by
  `accumulator.verifyInclusionProof(proof, hashKey)`; `none` when either
  throws, otherwise the boolean verification verdict. -/
  verifyInclusion : List Nat → HexStr → Option Bool

/-- Events emitted on the client event emitter. -/
inductive HistoryEvent : Type
  | contentAdded (hashKey : HexStr) (contentType : Nat) (content : HexStr)
  | verified (hashKey : HexStr) (ok : Bool)
deriving DecidableEq, Repr

/-- Observable state touched by `addContentToHistory`: the backing store
(`client.db`), the emitted events, the gossip queue
(`gossipManager.add(hashKey, contentType)` calls) and the receipt batches
handed to `receiptManager.saveReceipts` (recorded by block number). -/
structure HistoryState where
  db : List (HexStr × HexStr)
  events : List HistoryEvent
  gossip : List (HexStr × Nat)
  receiptsSaved : List Nat
deriving DecidableEq, Repr

/-- `ContentManager`: its only data fields are the radius (and a handle to the
protocol, carried separately here as `HistoryExt`/`HistoryState`). -/
structure ContentManagerM where
  radius : Nat
deriving DecidableEq, Repr

/-- The code that runs after the `switch` in `addContentToHistory`: emit
`ContentAdded` unless the type is `HeaderProof`, then gossip when the routing
table is non-empty. -/
def finishAdd (hasPeers : Bool) (ct : HistoryContentType) (hashKey : HexStr)
    (value : List Nat) (st : HistoryState) : HistoryState :=
  let st1 :=
    if ct ≠ HistoryContentType.HeaderProof then
      { st with events :=
          st.events ++ [HistoryEvent.contentAdded hashKey (ctValue ct) (toHexString value)] }
    else st
  if hasPeers then { st1 with gossip := st1.gossip ++ [(hashKey, ctValue ct)] } else st1

/-- `ContentManager.addContentToHistory(contentType, hashKey, value)`
(src/unnamed/part_002, lines 35–144), translated branch by branch.  An early
`return` in the source leaves the state unchanged except for the effects
already performed before it. -/
def addContentToHistory (ext : HistoryExt) (hasPeers : Bool)
    (_cm : ContentManagerM) (st : HistoryState) (contentType : HistoryContentType)
    (hashKey : HexStr) (value : List Nat) : HistoryState :=
  let contentKey := getHistoryNetworkContentKey contentType (fromHexString hashKey)
  match contentType with
  | .BlockHeader =>
    match ext.decodeHeader value with
    | none => st
    | some header =>
      if toHexString header.hashBytes = hashKey then
        finishAdd hasPeers .BlockHeader hashKey value
          { st with db := alinsert st.db contentKey (toHexString value) }
      else st
  | .BlockBody =>
    if value = [] then st
    else
      let headerContentKey :=
        getHistoryNetworkContentKey .BlockHeader (fromHexString hashKey)
      let blockOpt :=
        match alookup st.db headerContentKey with
        | some hexHeader =>
          match ext.reassembleBlock (fromHexString hexHeader) value with
          | some b => some b
          | none => ext.getBlockByHash hashKey
        | none => ext.getBlockByHash hashKey
      match blockOpt with
      | some b =>
        let st1 := { st with db := alinsert st.db contentKey (toHexString value) }
        let st2 :=
          if 0 < b.txCount then
            { st1 with receiptsSaved := st1.receiptsSaved ++ [b.number] }
          else st1
        finishAdd hasPeers .BlockBody hashKey value st2
      | none => st
  | .Receipt =>
    finishAdd hasPeers .Receipt hashKey value
      { st with db := alinsert st.db contentKey (toHexString value) }
  | .EpochAccumulator =>
    finishAdd hasPeers .EpochAccumulator hashKey value
      { st with db := alinsert st.db contentKey (toHexString value) }
  | .HeaderProof =>
    match ext.verifyInclusion value hashKey with
    | some ok =>
      finishAdd hasPeers .HeaderProof hashKey value
        { st with events := st.events ++ [HistoryEvent.verified hashKey ok] }
    | none =>
      finishAdd hasPeers .HeaderProof hashKey value
        { st with events := st.events ++ [HistoryEvent.verified hashKey false] }

/-- The BlockHeader verifier of the source: the value RLP-decodes and the
decoded header's keccak-256 hash equals the key's block hash. -/
def headerOK (ext : HistoryExt) (hashKey : HexStr) (value : List Nat) : Bool :=
  match ext.decodeHeader value with
  | some header => toHexString header.hashBytes = hashKey
  | none => false

/-! ## Pre-merge accumulator index helpers (`blockNumberToLeafIndex`,
`blockNumberToGindex`) -/

/-- `EPOCH_SIZE`: records per epoch accumulator (§3 Glossary, §4.4). -/
def EPOCH_SIZE : Nat := 8192

/-- Modelled from the spec: `blockNumberToLeafIndex` lives in the History
`util.ts`, which is not under `src/`; only its unit test is
(src/unnamed/part_000, lines 30–31).  The spec's §4.4 formula
(`blockNumber mod 8192`) contradicts the spec's own Scenario A and the test
(`blockNumberToLeafIndex(1000) = 2000`); this definition follows the test,
which the source repository enforces: each accumulator record holds two
leaves (blockHash, totalDifficulty), so the leaf index is doubled. -/
def blockNumberToLeafIndex (blockNumber : Nat) : Nat :=
  (blockNumber % EPOCH_SIZE) * 2

/-- Modelled from the spec: `blockNumberToGindex`, reconstructed like
`blockNumberToLeafIndex` from Scenario A and the unit test
(src/unnamed/part_000, lines 28–29): the accumulator tree has
`2 * EPOCH_SIZE` leaves, so generalized indices start at `2 * (2 * EPOCH_SIZE)`. -/
def blockNumberToGindex (blockNumber : Nat) : Nat :=
  2 * EPOCH_SIZE * 2 + blockNumberToLeafIndex blockNumber

/-! ## State sub-protocol: `StateDB` -/

/-- A `TrieLevel`: its observable content is the underlying hex key/value
store (`MemoryLevel` / `AbstractLevel`). -/
abbrev TrieLevelM := List (HexStr × HexStr)

/-- `StateDB` fields: `accountTries` (a `Map` from hex state root to
`TrieLevel`), `knownAddresses` (a `Set` of hex addresses), and the
`StateRootIndex` (its payload modelled as the lists of roots fed to it). -/
structure StateDBM where
  accountTries : List (HexStr × TrieLevelM)
  knownAddresses : List HexStr
  stateRootIndex : List (List HexStr)
deriving DecidableEq, Repr

/-- `new StateDB()`. -/
def emptyStateDB : StateDBM :=
  { accountTries := [], knownAddresses := [], stateRootIndex := [] }

/-- `StateDB.addRoot(stateRoot)`: create a fresh empty `TrieLevel`, register it
with `putSublevel`, open it (the open/poll loop on a `MemoryLevel` terminates
with status `open` and is not observable here), and return it. -/
def addRootF (db : StateDBM) (stateRoot : List Nat) : TrieLevelM × StateDBM :=
  ([], { db with accountTries := alinsert db.accountTries (toHexString stateRoot) [] })

/-- `StateDB.getSublevel(stateRoot)` (database.ts lines 93–95):
`accountTries.get(toHexString(stateRoot)) ?? this.addRoot(stateRoot)`. -/
def getSublevelF (db : StateDBM) (stateRoot : List Nat) : TrieLevelM × StateDBM :=
  match alookup db.accountTries (toHexString stateRoot) with
  | some sub => (sub, db)
  | none => addRootF db stateRoot

/-- `StateDB.delSublevel(stateRoot)`. -/
def delSublevelF (db : StateDBM) (stateRoot : List Nat) : StateDBM :=
  { db with accountTries := alremove db.accountTries (toHexString stateRoot) }

/-- External collaborators of `StateDB.updateAccount`. -/
structure StateExt where
  /-- What `await trie.verifyProof(root, address, witnesses)` would yield:
  `false` models an invalid proof (the library throws / returns no value).
  The source never awaits it — see `promiseNotTruthy`. -/
  verifyProofResult : List Nat → List Nat → List (List Nat) → Bool
  /-- The node database writes performed by `trie.fromProof(witnesses)`
  (hashed node keys to node bodies, hex encoded by `TrieLevel.put`). -/
  fromProofNodes : List (List Nat) → List (HexStr × HexStr)
  /-- `Object.keys(this.sortAccountRecord(await this.getAccountRecord(addr)).accounts)`:
  the sorted state roots for an address, computed over the tries. -/
  sortedRootsFor : HexStr → List HexStr
  /-- `StateRootIndex.update` (stateroots.ts is not under `src/`). -/
  indexUpdate : List (List HexStr) → List (List HexStr) → List (List HexStr)

/-- The value of `!trie.verifyProof(...)` in the source: the call is not
awaited, so the operand is a `Promise` object, and every JS object is truthy;
the negation is therefore the constant `false`. -/
def promiseNotTruthy : Bool := false

/-- `StateDB.updateAccount(contentKey, content)` (database.ts lines 212–234).
Effects in source order: record the address in `knownAddresses`; obtain the
state trie (registering a fresh sublevel when the root is unknown); the
`if (!trie.verifyProof(...)) throw` guard (dead, see `promiseNotTruthy`);
`trie.fromProof(witnesses)` writing the proof nodes; re-register the sublevel;
update the state-root index; return the trie. -/
def updateAccountF (ext : StateExt) (db : StateDBM) (stateRoot address : List Nat)
    (witnesses : List (List Nat)) : StateDBM × Except String TrieLevelM :=
  let db1 := { db with knownAddresses := setAdd db.knownAddresses (toHexString address) }
  let subAndDb := getSublevelF db1 stateRoot
  if promiseNotTruthy then (subAndDb.2, Except.error "Invalid account trie proof")
  else
    let sub2 := putAll subAndDb.1 (ext.fromProofNodes witnesses)
    let atries :=
      alinsert (alremove subAndDb.2.accountTries (toHexString stateRoot))
        (toHexString stateRoot) sub2
    let db3 := { subAndDb.2 with accountTries := atries }
    let roots := ext.sortedRootsFor (toHexString address)
    ({ db3 with stateRootIndex := ext.indexUpdate db3.stateRootIndex [roots] },
      Except.ok sub2)

/-! ## State sub-protocol: `StateDB.sortAccountRecord` -/

/-- The fields of an `@ethereumjs/util` `Account` the sort reads; `nonce` and
`balance` are JS `bigint`s, non-negative for Ethereum accounts. -/
structure AccountM where
  nonce : Nat
  balance : Nat
deriving DecidableEq, Repr

/-- An `AccountRecord`: address plus a `Record<StateRootHex, Account>` (a JS
object, i.e. an insertion-ordered association list with distinct keys). -/
structure AccountRecordM where
  address : HexStr
  accounts : List (HexStr × AccountM)
deriving DecidableEq, Repr

/-- `accountRecord.accounts[root]` as read by the sort comparator (every root
handed to it is a key of the object; a missing key defaults harmlessly). -/
def getAcc (rec : AccountRecordM) (root : HexStr) : AccountM :=
  (alookup rec.accounts root).getD { nonce := 0, balance := 0 }

/-- The sort comparator of `sortAccountRecord` (database.ts lines 156–162),
as a signed integer.  The source returns `Number(n1 - n2)` / `Number(b1 - b2)`
on `bigint`s; `Number` on a nonzero `bigint` is never `0` or `NaN` and keeps
its sign (magnitudes ≥ 1 round to doubles ≥ 1, huge ones to ±Infinity), and
`Array.prototype.sort` consumes only the comparator's sign, so the integer
difference is an exact model. -/
def accCmp (rec : AccountRecordM) (root1 root2 : HexStr) : Int :=
  if (getAcc rec root1).nonce = (getAcc rec root2).nonce then
    ((getAcc rec root1).balance : Int) - ((getAcc rec root2).balance : Int)
  else
    ((getAcc rec root1).nonce : Int) - ((getAcc rec root2).nonce : Int)

/-- The non-strict order induced by the comparator, used to model the (stable,
comparator-sorted) JS `Array.prototype.sort`. -/
def accCmpLe (rec : AccountRecordM) (root1 root2 : HexStr) : Prop :=
  accCmp rec root1 root2 ≤ 0

instance (rec : AccountRecordM) : DecidableRel (accCmpLe rec) :=
  fun r1 r2 => inferInstanceAs (Decidable (accCmp rec r1 r2 ≤ 0))

instance (rec : AccountRecordM) : IsTotal HexStr (accCmpLe rec) := by
  constructor
  intro a b
  unfold accCmpLe accCmp
  split
  · rename_i h
    simp only [h, if_pos rfl] at *
    omega
  · rename_i h
    rw [if_neg (fun he => h he.symm)]
    omega

instance (rec : AccountRecordM) : IsTrans HexStr (accCmpLe rec) := by
  constructor
  intro a b c hab hbc
  unfold accCmpLe accCmp at *
  split at hab <;> split at hbc <;> split <;> omega

/-- `StateDB.sortAccountRecord(accountRecord)` (database.ts lines 154–171):
sort `Object.keys(accounts)` with the comparator and rebuild the object via
`Object.fromEntries`. -/
def sortAccountRecord (rec : AccountRecordM) : AccountRecordM :=
  let roots := rec.accounts.map Prod.fst
  let sortedRoots := List.insertionSort (accCmpLe rec) roots
  { address := rec.address,
    accounts := sortedRoots.map (fun root => (root, getAcc rec root)) }

/-- The spec's ordering on accounts: ascending (nonce, balance), compared as
unbounded big integers (lexicographically). -/
def nonceBalanceLe (a b : AccountM) : Prop :=
  a.nonce < b.nonce ∨ (a.nonce = b.nonce ∧ a.balance ≤ b.balance)

/-! ## State sub-protocol: `StateProtocol.sendFindContent` and
`findContentLocally` -/

/-- `ProtocolId` members used here (sub-protocol tags, §3). -/
inductive ProtocolIdM : Type
  | StateNetwork
  | HistoryNetwork
deriving DecidableEq, Repr

/-- `RequestCode` from the wire/uTP layer (not under `src/`; the four session
roles of the bulk-transfer channel, §4.6). -/
inductive RequestCodeM : Type
  | FOUNDCONTENT_WRITE
  | FINDCONTENT_READ
  | OFFER_WRITE
  | ACCEPT_READ
deriving DecidableEq, Repr

/-- The decoded CONTENT response union (§4.2): selector 0 carries a
bulk-transfer connection id payload, 1 inline content bytes, 2 a list of
ENR records. -/
inductive FoundContentValue : Type
  | utp (bs : List Nat)
  | content (bs : List Nat)
  | enrs (records : List (List Nat))
deriving DecidableEq, Repr

/-- The argument record of `handleNewRequest` for an opened uTP transfer. -/
structure UtpRequestM where
  protocolId : ProtocolIdM
  contentKeys : List (List Nat)
  peerId : HexStr
  connectionId : Nat
  requestCode : RequestCodeM
  contents : List (List Nat)
deriving DecidableEq, Repr

/-- `new DataView(bytes.buffer).getUint16(0, false)`: the first two bytes read
as a big-endian u16 (the deserialized union value is a fresh `Uint8Array`, so
its `buffer` starts at the value's first byte). -/
def getUint16BE (bs : List Nat) : Nat :=
  256 * bs.getD 0 0 + bs.getD 1 0

/-- The observable effects of processing one FINDCONTENT response:
uTP requests opened, `stateStore` writes performed, and the value returned to
the caller (`undefined` modelled as `none`). -/
structure ContentResponseEffects where
  requests : List UtpRequestM
  stored : List (HexStr × HexStr)
  returned : Option FoundContentValue
deriving DecidableEq, Repr

/-- The response-processing tail of `StateProtocol.sendFindContent`
(src/unnamed/part_001, lines 57–104), from the raw response bytes `res`:
an empty response yields `undefined`; a leading `MessageCodes.CONTENT` (0x05)
byte leads to `ContentMessageType.deserialize` (an external SSZ collaborator,
passed in as `deser`; `none` models a deserialization throw, caught by the
source) and the three-armed switch; any other leading byte falls through to
`undefined`. -/
def processFindContentResponse (deser : List Nat → Option FoundContentValue)
    (dstId : HexStr) (key : List Nat) (res : List Nat) : ContentResponseEffects :=
  if res = [] then { requests := [], stored := [], returned := none }
  else if res.getD 0 0 = 5 then
    match deser (res.drop 1) with
    | none => { requests := [], stored := [], returned := none }
    | some decoded =>
      match decoded with
      | .utp bs =>
        { requests :=
            [{ protocolId := ProtocolIdM.StateNetwork, contentKeys := [key],
               peerId := dstId, connectionId := getUint16BE bs,
               requestCode := RequestCodeM.FINDCONTENT_READ, contents := [] }],
          stored := [], returned := some decoded }
      | .content bs =>
        { requests := [], stored := [(toHexString key, toHexString bs)],
          returned := some decoded }
      | .enrs _ =>
        { requests := [], stored := [], returned := some decoded }
  else { requests := [], stored := [], returned := none }

/-- Modelled from the spec: `BaseProtocol.retrieve` (not under `src/`) reads
the persistence backend, which per §6 is a key→value store whose `lookup(key)`
returns the value or absence. -/
def retrieve (store : List (HexStr × HexStr)) (key : HexStr) : Option HexStr :=
  alookup store key

/-- `StateProtocol.findContentLocally(contentKey)` (src/unnamed/part_001,
lines 107–110): `value ? hexToBytes(value) : hexToBytes('0x')`, where an
absent value (`undefined`) and the empty string are both falsy. -/
def findContentLocally (store : List (HexStr × HexStr)) (contentKey : List Nat) :
    List Nat :=
  match retrieve store (toHexString contentKey) with
  | some value => if value = [] then hexToBytes ['0', 'x'] else hexToBytes value
  | none => hexToBytes ['0', 'x']

/-! ## Beacon sub-protocol content-key codec -/

/-- `BeaconLightClientNetworkContentType` members handled by the codec
(beacon/types.ts is not under `src/`; the numeric selector values are
abstracted as a `byteOf` parameter below). -/
inductive BeaconContentType : Type
  | LightClientBootstrap
  | LightClientOptimisticUpdate
  | LightClientFinalityUpdate
  | LightClientUpdatesByRange
deriving DecidableEq, Repr

/-- `getBeaconContentKey(contentType, serializedKey)` (beacon/util.ts lines
16–22): `toHexString(prefix) + toHexString(serializedKey).slice(2)` where
`prefix` is the one-byte array filled with the content type's value. -/
def getBeaconContentKey (byteOf : BeaconContentType → Nat)
    (contentType : BeaconContentType) (serializedKey : List Nat) : HexStr :=
  toHexString [byteOf contentType] ++ (toHexString serializedKey).drop 2

/-- `decodeBeaconContentKey(serializedKey)` (beacon/util.ts lines 29–44):
branch on the first byte and deserialize the rest under the matching SSZ key
type.  The per-type deserializers (external SSZ collaborators) are the
dependent parameter `deser`; an unknown selector throws, modelled as `none`. -/
def decodeBeaconContentKey (byteOf : BeaconContentType → Nat)
    {K : BeaconContentType → Type} (deser : (t : BeaconContentType) → List Nat → K t)
    (serializedKey : List Nat) : Option ((t : BeaconContentType) × K t) :=
  let selector := serializedKey.getD 0 0
  let contentKeyBytes := serializedKey.drop 1
  if selector = byteOf BeaconContentType.LightClientBootstrap then
    some ⟨BeaconContentType.LightClientBootstrap,
      deser BeaconContentType.LightClientBootstrap contentKeyBytes⟩
  else if selector = byteOf BeaconContentType.LightClientOptimisticUpdate then
    some ⟨BeaconContentType.LightClientOptimisticUpdate,
      deser BeaconContentType.LightClientOptimisticUpdate contentKeyBytes⟩
  else if selector = byteOf BeaconContentType.LightClientFinalityUpdate then
    some ⟨BeaconContentType.LightClientFinalityUpdate,
      deser BeaconContentType.LightClientFinalityUpdate contentKeyBytes⟩
  else if selector = byteOf BeaconContentType.LightClientUpdatesByRange then
    some ⟨BeaconContentType.LightClientUpdatesByRange,
      deser BeaconContentType.LightClientUpdatesByRange contentKeyBytes⟩
  else none

/-! ## `UltralightStateManager` -/

/-- The mutable fields of `UltralightStateManager` (src/unnamed/part_003):
`stateRoot` (hex string) and `stateRootBytes`; the wrapped `StateNetwork` is
read-only through this interface and carries no state of its own here. -/
structure USM where
  stateRoot : HexStr
  stateRootBytes : List Nat
deriving DecidableEq, Repr

/-- `new UltralightStateManager(stateNetwork)`: `stateRoot = ''`,
`stateRootBytes = new Uint8Array()`. -/
def newUSM : USM := { stateRoot := [], stateRootBytes := [] }

/-- `deleteAccount(address)`. -/
def USM.deleteAccount (m : USM) (_address : List Nat) : USM × Except String Unit :=
  (m, Except.error "Method not implemented.")

/-- `modifyAccountFields(address, accountFields)`. -/
def USM.modifyAccountFields (m : USM) (_address : List Nat)
    (_accountFields : Option AccountM) : USM × Except String Unit :=
  (m, Except.error "Method not implemented.")

/-- `putContractCode(address, value)`. -/
def USM.putContractCode (m : USM) (_address _value : List Nat) :
    USM × Except String Unit :=
  (m, Except.error "Method not implemented.")

/-- `putContractStorage(address, key, value)`. -/
def USM.putContractStorage (m : USM) (_address _key _value : List Nat) :
    USM × Except String Unit :=
  (m, Except.error "Method not implemented.")

/-- `clearContractStorage(address)`. -/
def USM.clearContractStorage (m : USM) (_address : List Nat) :
    USM × Except String Unit :=
  (m, Except.error "Method not implemented.")

/-- `revert()`. -/
def USM.revert (m : USM) : USM × Except String Unit :=
  (m, Except.error "Method not implemented.")

/-- `putAccount(address, account)`: resolves to `undefined` without touching
anything. -/
def USM.putAccount (m : USM) (_address : List Nat) (_account : Option AccountM) :
    USM × Except String Unit :=
  (m, Except.ok ())

/-- `checkpoint()`. -/
def USM.checkpoint (m : USM) : USM × Except String Unit :=
  (m, Except.ok ())

/-- `commit()`. -/
def USM.commit (m : USM) : USM × Except String Unit :=
  (m, Except.ok ())

/-- `getStateRoot()`: returns `this.stateRootBytes`. -/
def USM.getStateRoot (m : USM) : List Nat :=
  m.stateRootBytes

/-- `setStateRoot(stateRoot)`: stores the bytes and their hex rendering. -/
def USM.setStateRoot (_m : USM) (stateRoot : List Nat) : USM :=
  { stateRoot := toHexString stateRoot, stateRootBytes := stateRoot }

/-! ## Concrete instantiations used by closed counterexamples and witnesses -/

/-- A concrete `HistoryExt` on which every external decoder fails: arbitrary
(non-decodable) receipt bytes exercise the Receipt branch. -/
def histExtCex : HistoryExt :=
  { decodeHeader := fun _ => none, reassembleBlock := fun _ _ => none,
    getBlockByHash := fun _ => none, verifyInclusion := fun _ _ => none }

/-- The empty History state (empty store, no events, no gossip). -/
def histStEmpty : HistoryState :=
  { db := [], events := [], gossip := [], receiptsSaved := [] }

/-- A concrete hash key, the hex string `0xab`. -/
def hkCex : HexStr := ['0', 'x', 'a', 'b']

/-- A concrete stand-in for the keccak-256 content-id derivation
(`serializedContentKeyToContentId`, an external collaborator): any derivation
whose value at the admitted key differs from the local node id witnesses the
missing radius check, since `addContentToHistory` consults neither the
content id nor the radius. -/
def cidStub : HexStr → Nat := fun _ => 1

/-- A concrete `StateExt` describing an invalid account-trie proof: awaiting
`verifyProof` would yield no valid value (`false`), and `fromProof` would
write each witness node keyed by its own bytes. -/
def stateExtCex : StateExt :=
  { verifyProofResult := fun _ _ _ => false,
    fromProofNodes := fun ws => ws.map (fun w => (toHexString w, toHexString w)),
    sortedRootsFor := fun _ => [],
    indexUpdate := fun idx newRoots => idx ++ newRoots }

/-- A concrete CONTENT-union deserializer for the uTP-arm witness: selector
byte 0 followed by a two-byte big-endian connection id. -/
def deserFCCex : List Nat → Option FoundContentValue := fun bs =>
  if bs = [0, 1, 2] then some (FoundContentValue.utp [1, 2]) else none

/-- Concrete Beacon content-type selector bytes for the round-trip witness. -/
def byteOfCex : BeaconContentType → Nat
  | .LightClientBootstrap => 16
  | .LightClientOptimisticUpdate => 17
  | .LightClientFinalityUpdate => 18
  | .LightClientUpdatesByRange => 19

/-- Concrete per-type deserializer (the identity on bytes) for the round-trip
witness. -/
def deserBCex : (t : BeaconContentType) → List Nat → List Nat := fun _ bs => bs

/-! ## Helper lemmas -/

theorem hexVal_digitChar {d : Nat} (hd : d < 16) : hexVal (Nat.digitChar d) = d := by
  interval_cases d <;> decide

theorem parseHexPairs_flatMap :
    ∀ (bs : List Nat), (∀ b ∈ bs, b < 256) → parseHexPairs (bs.flatMap byteToHex) = bs
  | [], _ => rfl
  | b :: bs, h => by
    have hb : b < 256 := h b (List.mem_cons_self b bs)
    have h16a : b / 16 < 16 := by omega
    have h16b : b % 16 < 16 := by omega
    have ih := parseHexPairs_flatMap bs (fun x hx => h x (List.mem_cons_of_mem b hx))
    show (16 * hexVal (Nat.digitChar (b / 16)) + hexVal (Nat.digitChar (b % 16))) ::
        parseHexPairs (bs.flatMap byteToHex) = b :: bs
    rw [hexVal_digitChar h16a, hexVal_digitChar h16b, ih]
    congr 1
    omega

theorem fromHexString_toHexString (bs : List Nat) (h : ∀ b ∈ bs, b < 256) :
    fromHexString (toHexString bs) = bs := by
  unfold fromHexString toHexString
  rw [if_pos (show List.take 2 ('0' :: 'x' :: bs.flatMap byteToHex) = ['0', 'x'] from rfl)]
  simpa using parseHexPairs_flatMap bs h

theorem alookup_alinsert_self {α β : Type} [DecidableEq α] :
    ∀ (l : List (α × β)) (k : α) (v : β), alookup (alinsert l k v) k = some v
  | [], k, v => by simp [alinsert, alookup]
  | (a, b) :: rest, k, v => by
    by_cases h : a = k
    · simp [alinsert, h, alookup]
    · simp [alinsert, h, alookup, alookup_alinsert_self rest k v]

theorem alookup_map_keys {α β : Type} [DecidableEq α] (g : α → β) :
    ∀ (ks : List α) (key : α),
      alookup (ks.map fun k => (k, g k)) key = if key ∈ ks then some (g key) else none
  | [], _ => by simp [alookup]
  | k :: ks, key => by
    simp only [List.map_cons, alookup]
    by_cases h : k = key
    · subst h
      simp
    · have h2 : ¬ key = k := fun hk => h hk.symm
      simp [h, h2, alookup_map_keys g ks key, List.mem_cons]

theorem alookup_eq_none_of_not_mem {α β : Type} [DecidableEq α] :
    ∀ (l : List (α × β)) (k : α), k ∉ l.map Prod.fst → alookup l k = none
  | [], _, _ => rfl
  | (a, b) :: rest, k, h => by
    have h1 : ¬ a = k := fun he => h (by simp [he])
    simp only [alookup, if_neg h1]
    exact alookup_eq_none_of_not_mem rest k (fun hm => h (by simp [hm]))

theorem alookup_isSome_of_mem {α β : Type} [DecidableEq α] :
    ∀ (l : List (α × β)) (k : α), k ∈ l.map Prod.fst → (alookup l k).isSome
  | [], _, h => by simp at h
  | (a, b) :: rest, k, h => by
    by_cases h1 : a = k
    · simp [alookup, h1]
    · have : k ∈ rest.map Prod.fst := by
        rcases List.mem_cons.mp h with h2 | h2
        · exact absurd h2.symm h1
        · exact h2
      simp [alookup, h1, alookup_isSome_of_mem rest k this]

/-! ## Claim C3: accumulator leaf index and gindex -/

/-- C3 counterexample: on the model fixed by the repository's own unit test
(src/unnamed/part_000, lines 28–31), the claim's general formulas fail:
`blockNumberToLeafIndex 1000` is `2000`, not `1000 mod 8192`, and
`blockNumberToGindex 1000` is `34768`, not `leafIndex + 2·EPOCH_SIZE = 18384`.
The claim is in fact self-contradictory: it asserts both `leafIndex(n) =
n mod 8192` and `leafIndex(1000) = 2000`. -/
theorem blockNumberToLeafIndex_spec_formula_cex :
    blockNumberToLeafIndex 1000 = 2000
    ∧ 2000 ≠ 1000 % 8192
    ∧ blockNumberToGindex 1000 = 34768
    ∧ 34768 ≠ blockNumberToLeafIndex 1000 + 2 * EPOCH_SIZE := by
  refine ⟨by decide, by decide, by decide, by decide⟩

/-- C3 (amended): `blockNumberToLeafIndex n = 2·(n mod 8192)` (two leaves per
accumulator record), `blockNumberToGindex n = leafIndex(n) + 4·EPOCH_SIZE`,
and the four concrete values of the claim hold:
`gindex(1000) = gindex(9192) = 34768`, `leafIndex(1000) = leafIndex(9192) = 2000`. -/
theorem blockNumberToGindex_amended :
    (∀ n, blockNumberToLeafIndex n = 2 * (n % 8192))
    ∧ (∀ n, blockNumberToGindex n = blockNumberToLeafIndex n + 4 * EPOCH_SIZE)
    ∧ blockNumberToGindex 1000 = 34768
    ∧ blockNumberToGindex 9192 = 34768
    ∧ blockNumberToLeafIndex 1000 = 2000
    ∧ blockNumberToLeafIndex 9192 = 2000 := by
  refine ⟨fun n => ?_, fun n => ?_, by decide, by decide, by decide, by decide⟩
  · unfold blockNumberToLeafIndex EPOCH_SIZE
    omega
  · unfold blockNumberToGindex EPOCH_SIZE
    omega

/-! ## Claim C9: `StateDB.getSublevel` -/

/-- C9: `getSublevel` always yields a database and registers it: after the
call the `accountTries` map binds `toHexString(stateRoot)` to the returned
sublevel; when the root was unknown a fresh empty `TrieLevel` is appended
(so the lookup mutates the `StateDB`), otherwise the map is untouched;
`knownAddresses` and the state-root index are never touched. -/
theorem getSublevel_registers_root (db : StateDBM) (stateRoot : List Nat) :
    alookup (getSublevelF db stateRoot).2.accountTries (toHexString stateRoot) =
      some (getSublevelF db stateRoot).1
    ∧ (getSublevelF db stateRoot).2.accountTries =
        (if (alookup db.accountTries (toHexString stateRoot)).isSome then
          db.accountTries
        else alinsert db.accountTries (toHexString stateRoot) [])
    ∧ (getSublevelF db stateRoot).2.knownAddresses = db.knownAddresses
    ∧ (getSublevelF db stateRoot).2.stateRootIndex = db.stateRootIndex := by
  unfold getSublevelF addRootF
  cases h : alookup db.accountTries (toHexString stateRoot) <;>
    simp [h, alookup_alinsert_self]

/-! ## Claim C10: `UltralightStateManager` is read-only -/

/-- C10: every mutating method of `UltralightStateManager` either rejects with
`'Method not implemented.'` (deleteAccount, modifyAccountFields,
putContractCode, putContractStorage, clearContractStorage, revert) or resolves
without changing any state (putAccount, checkpoint, commit); `getStateRoot`
returns exactly the byte string last passed to `setStateRoot`, and the empty
byte string on a fresh instance. -/
theorem ultralightStateManager_read_only :
    (∀ m a, USM.deleteAccount m a = (m, Except.error "Method not implemented."))
    ∧ (∀ m a f, USM.modifyAccountFields m a f = (m, Except.error "Method not implemented."))
    ∧ (∀ m a v, USM.putContractCode m a v = (m, Except.error "Method not implemented."))
    ∧ (∀ m a k v, USM.putContractStorage m a k v = (m, Except.error "Method not implemented."))
    ∧ (∀ m a, USM.clearContractStorage m a = (m, Except.error "Method not implemented."))
    ∧ (∀ m, USM.revert m = (m, Except.error "Method not implemented."))
    ∧ (∀ m a acct, USM.putAccount m a acct = (m, Except.ok ()))
    ∧ (∀ m, USM.checkpoint m = (m, Except.ok ()))
    ∧ (∀ m, USM.commit m = (m, Except.ok ()))
    ∧ USM.getStateRoot newUSM = []
    ∧ (∀ m b, USM.getStateRoot (USM.setStateRoot m b) = b)
    ∧ (∀ m b1 b2, USM.getStateRoot (USM.setStateRoot (USM.setStateRoot m b1) b2) = b2) :=
  ⟨fun _ _ => rfl, fun _ _ _ => rfl, fun _ _ _ => rfl, fun _ _ _ _ => rfl,
    fun _ _ => rfl, fun _ => rfl, fun _ _ _ => rfl, fun _ => rfl, fun _ => rfl,
    rfl, fun _ _ => rfl, fun _ _ _ => rfl⟩

/-! ## Claim C8: `findContentLocally` on absent content -/

/-- C8: when the backing store has no value under the hex content key,
`findContentLocally` resolves to the empty byte string; and a stored
zero-length value (`'0x'`) resolves to the same empty byte string, so absence
is indistinguishable from stored empty content at this interface. -/
theorem findContentLocally_absent_empty (store : List (HexStr × HexStr))
    (contentKey : List Nat) (h : retrieve store (toHexString contentKey) = none) :
    findContentLocally store contentKey = []
    ∧ findContentLocally (alinsert store (toHexString contentKey) (toHexString []))
        contentKey = [] := by
  constructor
  · unfold findContentLocally
    rw [h]
    rfl
  · unfold findContentLocally retrieve
    rw [alookup_alinsert_self]
    decide

/-- C8 witness: the empty store holds nothing under the key for content key
bytes `[0xab]`, and `findContentLocally` returns the empty byte string. -/
theorem findContentLocally_absent_empty_witness :
    retrieve [] (toHexString [171]) = none
    ∧ findContentLocally [] [171] = []
    ∧ findContentLocally (alinsert [] (toHexString [171]) (toHexString [])) [171] = [] :=
  ⟨rfl, (findContentLocally_absent_empty [] [171] rfl).1,
    (findContentLocally_absent_empty [] [171] rfl).2⟩

/-! ## Claim C5: `StateDB.updateAccount` on an invalid proof -/

/-- C5 (code bug): `updateAccount`'s guard reads
`if (!trie.verifyProof(...)) throw new Error('Invalid account trie proof')`
but never awaits the async `verifyProof`; the operand is a `Promise` object,
which is truthy, so the guard never fires.  On a concrete invalid proof
(`verifyProofResult = false` on witnesses `[[0x01]]` against state root
`0x00`, address `0xaa`, starting from an empty `StateDB`) the call does not
raise `'Invalid account trie proof'`: it resolves, records the address in
`knownAddresses`, registers a sublevel for the unknown root holding the
unverified proof nodes written by `trie.fromProof`, and updates the
state-root index — contradicting the claim on every count. -/
theorem updateAccount_missing_await_stores_invalid_proof :
    stateExtCex.verifyProofResult [0] [170] [[1]] = false
    ∧ (updateAccountF stateExtCex emptyStateDB [0] [170] [[1]]).2 =
        Except.ok [(toHexString [1], toHexString [1])]
    ∧ (updateAccountF stateExtCex emptyStateDB [0] [170] [[1]]).1.knownAddresses =
        [toHexString [170]]
    ∧ alookup (updateAccountF stateExtCex emptyStateDB [0] [170] [[1]]).1.accountTries
        (toHexString [0]) = some [(toHexString [1], toHexString [1])]
    ∧ (updateAccountF stateExtCex emptyStateDB [0] [170] [[1]]).1.stateRootIndex ≠
        emptyStateDB.stateRootIndex := by
  refine ⟨rfl, rfl, rfl, by decide, by decide⟩

/-! ## Claim C6: `sendFindContent` on the bulk-transfer arm -/

/-- C6: when the response leads with `MessageCodes.CONTENT` and the union
decodes to the bulk-transfer arm, `sendFindContent` opens exactly one transfer
request — connection id the first two bytes of the union payload as a
big-endian u16, request code `FINDCONTENT_READ`, the queried content key —
stores nothing, and returns the decoded union to the caller. -/
theorem processFindContentResponse_utp_opens_transfer
    (deser : List Nat → Option FoundContentValue) (dstId : HexStr)
    (key res bs : List Nat) (hne : ¬ res = []) (hsel : res.getD 0 0 = 5)
    (hdec : deser (res.drop 1) = some (FoundContentValue.utp bs)) :
    processFindContentResponse deser dstId key res =
      { requests :=
          [{ protocolId := ProtocolIdM.StateNetwork, contentKeys := [key],
             peerId := dstId, connectionId := 256 * bs.getD 0 0 + bs.getD 1 0,
             requestCode := RequestCodeM.FINDCONTENT_READ, contents := [] }],
        stored := [], returned := some (FoundContentValue.utp bs) } := by
  unfold processFindContentResponse
  rw [if_neg hne, if_pos hsel, hdec]
  simp [getUint16BE]

/-- C6 witness: response bytes `[0x05, 0x00, 0x01, 0x02]` (CONTENT selector,
then union selector 0 with payload `[0x01, 0x02]`) open one transfer request
with connection id 258. -/
theorem processFindContentResponse_utp_opens_transfer_witness :
    processFindContentResponse deserFCCex ['a'] [7] [5, 0, 1, 2] =
      { requests :=
          [{ protocolId := ProtocolIdM.StateNetwork, contentKeys := [[7]],
             peerId := ['a'], connectionId := 258,
             requestCode := RequestCodeM.FINDCONTENT_READ, contents := [] }],
        stored := [], returned := some (FoundContentValue.utp [1, 2]) } := by
  exact processFindContentResponse_utp_opens_transfer deserFCCex ['a'] [7]
    [5, 0, 1, 2] [1, 2] (by decide) rfl rfl

/-! ## Claims C1 and C2: History admission -/

theorem finishAdd_db (hp : Bool) (ct : HistoryContentType) (hk : HexStr)
    (v : List Nat) (st : HistoryState) : (finishAdd hp ct hk v st).db = st.db := by
  simp only [finishAdd]
  split <;> split <;> rfl

/-- C2: `addContentToHistory` with content type BlockHeader writes the value
exactly when it RLP-decodes to a header whose keccak-256 hash equals the key's
block hash; on success it also emits `ContentAdded` and queues gossip (when
peers exist); on a hash mismatch or a decode failure the state is completely
unchanged — no store write, no event, no gossip. -/
theorem addContentToHistory_blockHeader_verified (ext : HistoryExt) (hp : Bool)
    (cm : ContentManagerM) (st : HistoryState) (hashKey : HexStr) (value : List Nat) :
    addContentToHistory ext hp cm st HistoryContentType.BlockHeader hashKey value =
      if headerOK ext hashKey value then
        { db := alinsert st.db
            (getHistoryNetworkContentKey HistoryContentType.BlockHeader (fromHexString hashKey))
            (toHexString value),
          events := st.events ++ [HistoryEvent.contentAdded hashKey 0 (toHexString value)],
          gossip := if hp then st.gossip ++ [(hashKey, 0)] else st.gossip,
          receiptsSaved := st.receiptsSaved }
      else st := by
  cases hdec : ext.decodeHeader value with
  | none => simp [addContentToHistory, headerOK, hdec]
  | some header =>
    by_cases hh : toHexString header.hashBytes = hashKey
    · cases hp <;> simp [addContentToHistory, headerOK, hdec, hh, finishAdd, ctValue]
    · simp [addContentToHistory, headerOK, hdec, hh]

/-- C1 counterexample: with radius 0 and any content-id derivation whose value
at the admitted key differs from the local node id 0 (here `cidStub`; the
keccak-256 content id of this key is astronomically unlikely to equal any
fixed node id), `addContentToHistory` still writes arbitrary, unverifiable
Receipt bytes `[0x01]` to the store: `XOR(local, content-id(key)) ≤ radius`
fails, and no receipts verifier was consulted.  The source never reads
`this.radius` and never computes a content id in `addContentToHistory`. -/
theorem addContentToHistory_no_radius_check_cex :
    alookup (addContentToHistory histExtCex false { radius := 0 } histStEmpty
        HistoryContentType.Receipt hkCex [1]).db
      (getHistoryNetworkContentKey HistoryContentType.Receipt (fromHexString hkCex)) =
      some (toHexString [1])
    ∧ ¬ distance 0
        (cidStub (getHistoryNetworkContentKey HistoryContentType.Receipt (fromHexString hkCex))) ≤ 0 := by
  refine ⟨by decide, by decide⟩

/-- C1 (amended): admission in `addContentToHistory` never consults the radius
(the result is identical for any two radii) and is not uniformly verified:
Receipt and EpochAccumulator values are written to the store unconditionally,
while BlockHeader values are written exactly when the type-specific verifier
(RLP decode plus hash equality) passes.  Nothing is asserted here about the
BlockBody or HeaderProof branches: in particular BlockBody is not gated by its
verifier either, since its network-fallback path (part_002 lines 78–89) stores
the provided bytes unchecked whenever `getBlockByHash` returns a block. -/
theorem addContentToHistory_admission_amended :
    (∀ (ext : HistoryExt) (hp : Bool) (r1 r2 : Nat) (st : HistoryState)
        (ct : HistoryContentType) (hashKey : HexStr) (value : List Nat),
        addContentToHistory ext hp { radius := r1 } st ct hashKey value =
          addContentToHistory ext hp { radius := r2 } st ct hashKey value)
    ∧ (∀ ext hp cm st hashKey value,
        (addContentToHistory ext hp cm st HistoryContentType.Receipt hashKey value).db =
          alinsert st.db
            (getHistoryNetworkContentKey HistoryContentType.Receipt (fromHexString hashKey))
            (toHexString value))
    ∧ (∀ ext hp cm st hashKey value,
        (addContentToHistory ext hp cm st HistoryContentType.EpochAccumulator hashKey value).db =
          alinsert st.db
            (getHistoryNetworkContentKey HistoryContentType.EpochAccumulator (fromHexString hashKey))
            (toHexString value))
    ∧ (∀ ext hp cm st hashKey value,
        (addContentToHistory ext hp cm st HistoryContentType.BlockHeader hashKey value).db =
          if headerOK ext hashKey value then
            alinsert st.db
              (getHistoryNetworkContentKey HistoryContentType.BlockHeader (fromHexString hashKey))
              (toHexString value)
          else st.db) := by
  refine ⟨fun _ _ _ _ _ _ _ _ => rfl, fun ext hp cm st hk v => ?_,
    fun ext hp cm st hk v => ?_, fun ext hp cm st hk v => ?_⟩
  · simp only [addContentToHistory]
    rw [finishAdd_db]
  · simp only [addContentToHistory]
    rw [finishAdd_db]
  · cases hdec : ext.decodeHeader v with
    | none => simp [addContentToHistory, headerOK, hdec]
    | some header =>
      by_cases hh : toHexString header.hashBytes = hk
      · simp [addContentToHistory, headerOK, hdec, hh, finishAdd_db]
      · simp [addContentToHistory, headerOK, hdec, hh]

/-! ## Claim C4: `StateDB.sortAccountRecord` -/

theorem accCmpLe_nonceBalanceLe {rec : AccountRecordM} {a b : HexStr}
    (h : accCmpLe rec a b) : nonceBalanceLe (getAcc rec a) (getAcc rec b) := by
  unfold accCmpLe accCmp at h
  unfold nonceBalanceLe
  split at h <;> omega

/-- C4: `sortAccountRecord` preserves the address, permutes the state roots,
binds every root to the same account as before, and orders the entries
ascending by (nonce, balance) compared as unbounded integers — the comparator
`Number(bigint difference)` can lose magnitude but never sign, so the machine
conversion flagged by the spec does not change the order. -/
theorem sortAccountRecord_sorted_by_nonce_balance (rec : AccountRecordM) :
    (sortAccountRecord rec).address = rec.address
    ∧ ((sortAccountRecord rec).accounts.map Prod.fst).Perm (rec.accounts.map Prod.fst)
    ∧ List.Sorted (fun p q : HexStr × AccountM => nonceBalanceLe p.2 q.2)
        (sortAccountRecord rec).accounts
    ∧ ∀ root, alookup (sortAccountRecord rec).accounts root = alookup rec.accounts root := by
  have hperm := List.perm_insertionSort (accCmpLe rec) (rec.accounts.map Prod.fst)
  refine ⟨rfl, ?_, ?_, ?_⟩
  · simpa [sortAccountRecord, List.map_map, Function.comp_def] using hperm
  · have hs := List.sorted_insertionSort (accCmpLe rec) (rec.accounts.map Prod.fst)
    simp only [sortAccountRecord, List.Sorted]
    refine List.pairwise_map.mpr ?_
    exact hs.imp (fun h => accCmpLe_nonceBalanceLe h)
  · intro root
    simp only [sortAccountRecord]
    rw [alookup_map_keys]
    by_cases hmem : root ∈ rec.accounts.map Prod.fst
    · rw [if_pos (hperm.mem_iff.mpr hmem)]
      obtain ⟨v, hv⟩ :=
        Option.isSome_iff_exists.mp (alookup_isSome_of_mem rec.accounts root hmem)
      simp [getAcc, hv]
    · rw [if_neg (fun hc => hmem (hperm.mem_iff.mp hc)),
        alookup_eq_none_of_not_mem rec.accounts root hmem]

/-! ## Claim C7: Beacon content-key codec round trip -/

/-- C7: for each of the four light-client content types, `getBeaconContentKey`
encodes the selector byte followed by the serialized key body (its byte
reading is `byteOf t :: b`), and `decodeBeaconContentKey` on those bytes
deserializes the body under the matching key type.  The selector values and
per-type SSZ deserializers live in beacon `types.ts` (not under `src/`) and
are abstracted, assuming only distinct one-byte selectors. -/
theorem beaconContentKey_roundtrip (byteOf : BeaconContentType → Nat)
    {K : BeaconContentType → Type}
    (deser : (t : BeaconContentType) → List Nat → K t)
    (hnd : List.Nodup [byteOf BeaconContentType.LightClientBootstrap,
      byteOf BeaconContentType.LightClientOptimisticUpdate,
      byteOf BeaconContentType.LightClientFinalityUpdate,
      byteOf BeaconContentType.LightClientUpdatesByRange])
    (hlt : ∀ t, byteOf t < 256) (t : BeaconContentType) (b : List Nat)
    (hb : ∀ x ∈ b, x < 256) :
    fromHexString (getBeaconContentKey byteOf t b) = byteOf t :: b
    ∧ decodeBeaconContentKey byteOf deser
        (fromHexString (getBeaconContentKey byteOf t b)) =
      some ⟨t, deser t b⟩ := by
  have hb2 : ∀ x ∈ byteOf t :: b, x < 256 := by
    intro x hx
    rcases List.mem_cons.mp hx with h | h
    · rw [h]
      exact hlt t
    · exact hb x h
  have hkey : getBeaconContentKey byteOf t b = toHexString (byteOf t :: b) := rfl
  have hfw : fromHexString (getBeaconContentKey byteOf t b) = byteOf t :: b := by
    rw [hkey]
    exact fromHexString_toHexString _ hb2
  refine ⟨hfw, ?_⟩
  rw [hfw]
  simp only [List.nodup_cons, List.mem_cons, List.mem_singleton,
    List.not_mem_nil, or_false, not_or, List.nodup_nil, and_true] at hnd
  obtain ⟨⟨h01, h02, h03⟩, ⟨h12, h13⟩, h23, -⟩ := hnd
  cases t with
  | LightClientBootstrap =>
    simp [decodeBeaconContentKey]
  | LightClientOptimisticUpdate =>
    simp [decodeBeaconContentKey, Ne.symm h01]
  | LightClientFinalityUpdate =>
    simp [decodeBeaconContentKey, Ne.symm h02, Ne.symm h12]
  | LightClientUpdatesByRange =>
    simp [decodeBeaconContentKey, Ne.symm h03, Ne.symm h13, Ne.symm h23]

/-- C7 witness: with selector bytes 16–19 and the identity deserializer, the
bootstrap key over body `[0xaa]` round-trips. -/
theorem beaconContentKey_roundtrip_witness :
    List.Nodup [byteOfCex BeaconContentType.LightClientBootstrap,
      byteOfCex BeaconContentType.LightClientOptimisticUpdate,
      byteOfCex BeaconContentType.LightClientFinalityUpdate,
      byteOfCex BeaconContentType.LightClientUpdatesByRange]
    ∧ decodeBeaconContentKey byteOfCex deserBCex
        (fromHexString (getBeaconContentKey byteOfCex
          BeaconContentType.LightClientBootstrap [170])) =
      some ⟨BeaconContentType.LightClientBootstrap, [170]⟩ :=
  ⟨by decide,
    (beaconContentKey_roundtrip byteOfCex deserBCex (by decide)
      (fun t => by cases t <;> decide) BeaconContentType.LightClientBootstrap [170]
      (by intro x hx; simp at hx; omega)).2⟩
